import Mathlib

/-!
Verification of the coffee-machine control firmware in `src/main.cpp`.

The firmware is shallowly embedded: every C++ `float`/`double` value is
modelled as a rational number (`ℚ`), machine times (`millis()` values,
`unsigned long` timestamps) as natural numbers, PWM duty values as integers,
and the global mutable state as explicit record-passing.  Each Lean
definition mirrors one C++ function of `src/main.cpp` and keeps its name.
-/

namespace AICoffee

/-! ## Configuration constants (src/main.cpp lines 69-114) -/

def QUEUE_SIZE : Nat := 20

def DUTY_STEP_SIZE : ℚ := 1/1000

def RPM_STEP_SIZE : ℚ := 7

def HEATER_TIMEOUT : Nat := 5000

def POST_PUMP_COOLDOWN : Nat := 1000

def SERVO_PERIOD_MS : Nat := 5000

/-- `(unsigned long)(SERVO_PERIOD_MS * FORWARD_DUTY_CYCLE)` = 5000 * 0.90 -/
def FORWARD_DURATION_MS : Nat := 4500

/-- `(unsigned long)(SERVO_PERIOD_MS * REVERSE_DUTY_CYCLE)` = 5000 * 0.10 -/
def REVERSE_DURATION_MS : Nat := 500

def SERVO_STOP_SPEED : Nat := 90

def flowCalcInterval : Nat := 100

def controlInterval : Nat := 50

def kp : ℚ := 15

def ki : ℚ := 30

def kd : ℚ := 1/2

def maxIntegral : ℚ := 100

/-! ## Small helpers for C semantics -/

/-- Arduino `constrain(amt, low, high)` on rationals. -/
def constrainQ (x lo hi : ℚ) : ℚ := if x < lo then lo else if x > hi then hi else x

/-- Arduino `constrain` on integers. -/
def constrainI (x lo hi : Int) : Int := if x < lo then lo else if x > hi then hi else x

/-- C `round()`: round half away from zero. -/
def roundHalfAway (x : ℚ) : Int := if 0 ≤ x then ⌊x + 1/2⌋ else -⌊-x + 1/2⌋

/-- C cast of a nonnegative float to an unsigned integer type (truncation
    toward zero; all uses in the firmware are on nonnegative values). -/
def truncToNat (x : ℚ) : Nat := (⌊x⌋).toNat

/-! ## VESC ramping helpers (src/main.cpp lines 241-260)

`stepDuty1` and `stepRpm2` have the same body up to the step-size constant
and the final `constrain`; the shared body is `rampStep`. -/

/-- One ramp step: snap to `target` when within `stepSize`, else move
    `current` toward `target` by `stepSize`. -/
def rampStep (stepSize current target : ℚ) : ℚ :=
  let diff := target - current
  if |diff| ≤ stepSize then target
  else current + (if 0 < diff then stepSize else -stepSize)

/-- `stepDuty1` (grinder, VESC1): ramp step followed by
    `constrain(currentDuty1, -1.0f, 1.0f)`. -/
def stepDuty1 (currentDuty1 targetDuty1 : ℚ) : ℚ :=
  constrainQ (rampStep DUTY_STEP_SIZE currentDuty1 targetDuty1) (-1) 1

/-- `stepRpm2` (drum, VESC2): ramp step, no constrain in the source. -/
def stepRpm2 (currentRpm2 targetRpm2 : ℚ) : ℚ :=
  rampStep RPM_STEP_SIZE currentRpm2 targetRpm2

/-! ## Water-pump calibration helpers (src/main.cpp lines 216-237) -/

/-- The calibration polynomial
    `-0.0792 * flowRate^2 + 1.0238 * flowRate + 1.2755`. -/
def calibTicksPerML (flowRate : ℚ) : ℚ :=
  -(792/10000) * flowRate^2 + (10238/10000) * flowRate + (12755/10000)

/-- `getTicksPerML(flowRate)`; the C++ function also reads the global
    `targetFlowRateMLPS`, passed here as the first argument. -/
def getTicksPerML (targetFlowRateMLPS flowRate : ℚ) : ℚ :=
  let ticks := calibTicksPerML flowRate
  if ticks ≤ 1/10 then
    if flowRate < 1/10 ∧ 1/10 < targetFlowRateMLPS then
      let ticks2 := calibTicksPerML targetFlowRateMLPS
      if ticks2 ≤ 1/10 then 1 else ticks2
    else 1
  else ticks

/-- `calculateFeedforwardDuty(targetRate)`:
    `constrain(round((targetRate + 1.0155) / 0.0343), 0, 255)` for positive
    rates, `0` otherwise. -/
def calculateFeedforwardDuty (targetRate : ℚ) : Int :=
  if targetRate ≤ 0 then 0
  else constrainI (roundHalfAway ((targetRate + 10155/10000) / (343/10000))) 0 255

/-! ## Command data model (src/main.cpp lines 181-189) -/

inductive CommandType where
  | CMD_R
  | CMD_G
  | CMD_P
  | CMD_H
  | CMD_S
  | CMD_D
  | CMD_INVALID
deriving DecidableEq

open CommandType

structure Command where
  type : CommandType
  value1 : ℚ := 0
  value2 : ℚ := 0
  id : Char := ' '
deriving DecidableEq

instance : Inhabited Command := ⟨{ type := CMD_INVALID }⟩

/-! ## Arduino String helpers

Arduino `String`s are modelled as `List Char`.  `String::toFloat` calls
C `atof`; tokens of the command grammar only ever contain plain decimal
notation, which is what the model parses (optional leading whitespace,
optional sign, integer digits, optional fractional digits; result `0` when
no digits parse; exponent notation is not modelled). -/

def isSpaceChar (c : Char) : Bool :=
  c = ' ' || c = '\t' || c = '\n' || c = '\x0b' || c = '\x0c' || c = '\r'

/-- Longest digit prefix and the remaining characters. -/
def takeDigits : List Char → List Char × List Char
  | [] => ([], [])
  | c :: cs =>
      if c.isDigit then
        let p := takeDigits cs
        (c :: p.1, p.2)
      else ([], c :: cs)

def digitsToNat (ds : List Char) : Nat :=
  ds.foldl (fun n c => 10 * n + (c.toNat - 48)) 0

/-- Magnitude part of `atof`: `digits[.digits]`, the exact decimal value
    `intpart + fracpart / 10 ^ fracdigits`. -/
def toFloatMag (cs : List Char) : ℚ :=
  let ip := takeDigits cs
  let fp := match ip.2 with
    | '.' :: rest => (takeDigits rest).1
    | _ => []
  mkRat (digitsToNat ip.1 * 10 ^ fp.length + digitsToNat fp) (10 ^ fp.length)

/-- Model of Arduino `String::toFloat`. -/
def toFloat (str : List Char) : ℚ :=
  match str.dropWhile (fun c => isSpaceChar c) with
  | '-' :: rest => -(toFloatMag rest)
  | '+' :: rest => toFloatMag rest
  | rest => toFloatMag rest

/-- `String::trim` (remove leading and trailing whitespace). -/
def trimStr (cs : List Char) : List Char :=
  ((cs.dropWhile (fun c => isSpaceChar c)).reverse.dropWhile
    (fun c => isSpaceChar c)).reverse

/-! ## `parseToken` (src/main.cpp lines 264-356) -/

def parseToken (token : List Char) : Command :=
  if token.length < 3 ∨ token.get? 1 ≠ some '-' then { type := CMD_INVALID }
  else
    let cmdType := (token.headD ' ').toUpper
    let params := token.drop 2
    if cmdType = 'R' then { type := CMD_R, value1 := toFloat params }
    else if cmdType = 'G' then
      -- out-of-range duty only triggers a warning; the command stays valid
      { type := CMD_G, value1 := toFloat params }
    else if cmdType = 'P' then
      match params.findIdx? (fun c => c = '-') with
      | some dashIndex =>
          let v1 := toFloat (params.take dashIndex)
          let v2 := toFloat (params.drop (dashIndex + 1))
          if v1 ≤ 0 ∨ v2 ≤ 0 then { type := CMD_INVALID }
          else { type := CMD_P, value1 := v1, value2 := v2 }
      | none => { type := CMD_INVALID }
    else if cmdType = 'H' then
      let v := toFloat params
      if v < 0 ∨ 100 < v then { type := CMD_INVALID }
      else { type := CMD_H, value1 := v }
    else if cmdType = 'S' then
      match params.findIdx? (fun c => c = '-') with
      | some dashIndex =>
          if dashIndex = 1 ∧ dashIndex + 1 < params.length then
            let sid := (params.headD ' ').toUpper
            let durationSec := toFloat (params.drop (dashIndex + 1))
            if ('A' ≤ sid ∧ sid ≤ 'D') ∧ 0 < durationSec then
              { type := CMD_S, value1 := durationSec, id := sid }
            else { type := CMD_INVALID }
          else { type := CMD_INVALID }
      | none => { type := CMD_INVALID }
    else if cmdType = 'D' then
      let v := toFloat params
      if v ≤ 0 then { type := CMD_INVALID }
      else { type := CMD_D, value1 := v }
    else { type := CMD_INVALID }

/-! ## Tokenization shared by `countValidCommandsInString` and
`processAndEnqueueCommands` (src/main.cpp lines 360-424)

Both functions run the same character loop: accumulate characters until a
space (or the end of the string), trim the accumulated token, and process it
when non-empty.  That loop is exactly: split on spaces, trim each piece,
drop the empty pieces. -/

def splitOnSpace : List Char → List (List Char)
  | [] => [[]]
  | c :: cs =>
      if c = ' ' then [] :: splitOnSpace cs
      else
        match splitOnSpace cs with
        | t :: ts => (c :: t) :: ts
        | [] => [[c]]

def tokensOf (input : List Char) : List (List Char) :=
  ((splitOnSpace input).map trimStr).filter (fun t => 0 < t.length)

/-- `countValidCommandsInString` (src/main.cpp lines 360-383). -/
def countValidCommandsInString (input : List Char) : Nat :=
  (tokensOf input).countP (fun t => (parseToken t).type != CMD_INVALID)

/-! ## Command queue (src/main.cpp lines 188-189, 387-424, 1056-1070) -/

structure QueueState where
  cmdQueue : List Command
  queueFront : Nat
  queueRear : Nat
  queueCount : Nat
deriving DecidableEq

/-- The queue insert in `processAndEnqueueCommands` (src/main.cpp 402-406);
    on an unexpectedly full queue the C++ code logs and stops, leaving the
    state unchanged, which the guard models. -/
def enqueueOne (q : QueueState) (cmd : Command) : QueueState :=
  if q.queueCount < QUEUE_SIZE then
    { cmdQueue := q.cmdQueue.set q.queueRear cmd
      queueFront := q.queueFront
      queueRear := (q.queueRear + 1) % QUEUE_SIZE
      queueCount := q.queueCount + 1 }
  else q

/-- Per-token step of `processAndEnqueueCommands`. -/
def enqueueStep (st : QueueState) (t : List Char) : QueueState :=
  let cmd := parseToken t
  if cmd.type ≠ CMD_INVALID then enqueueOne st cmd else st

/-- `processAndEnqueueCommands` (src/main.cpp lines 387-424). -/
def processAndEnqueueCommands (q : QueueState) (input : List Char) : QueueState :=
  (tokensOf input).foldl enqueueStep q

structure SubmitResult where
  queue : QueueState
  required : Nat
  available : Nat
  accepted : Bool
deriving DecidableEq

/-- The serial admission path in `loop()` (src/main.cpp lines 1056-1070):
    pre-check queue space with `countValidCommandsInString`, reject the whole
    line when the valid tokens do not fit, otherwise enqueue them. -/
def submitCommandLine (q : QueueState) (input : List Char) : SubmitResult :=
  -- requiredSlots = countValidCommandsInString(input),
  -- availableSlots = QUEUE_SIZE - queueCount
  if countValidCommandsInString input = 0 then
    { queue := q, required := countValidCommandsInString input,
      available := QUEUE_SIZE - q.queueCount, accepted := false }
  else if countValidCommandsInString input > QUEUE_SIZE - q.queueCount then
    { queue := q, required := countValidCommandsInString input,
      available := QUEUE_SIZE - q.queueCount, accepted := false }
  else
    { queue := processAndEnqueueCommands q input,
      required := countValidCommandsInString input,
      available := QUEUE_SIZE - q.queueCount, accepted := true }

/-- FIFO contents of the circular buffer, front first. -/
def queueList (q : QueueState) : List Command :=
  (List.range q.queueCount).map
    (fun i => q.cmdQueue.getD ((q.queueFront + i) % QUEUE_SIZE) default)

/-- Well-formedness of the circular buffer, established at boot
    (`queueFront = queueRear = queueCount = 0`, a 20-element array) and
    preserved by every queue operation. -/
def QueueWF (q : QueueState) : Prop :=
  q.cmdQueue.length = QUEUE_SIZE ∧ q.queueCount ≤ QUEUE_SIZE ∧
  q.queueFront < QUEUE_SIZE ∧
  q.queueRear = (q.queueFront + q.queueCount) % QUEUE_SIZE

/-- The valid commands of a line, in order. -/
def validCommandsOf (input : List Char) : List Command :=
  ((tokensOf input).map parseToken).filter (fun c => c.type != CMD_INVALID)

/-- The queue at boot: `queueFront = queueRear = queueCount = 0` and a
    20-element default-initialized array (src/main.cpp lines 188-189). -/
def bootQueue : QueueState :=
  { cmdQueue := List.replicate 20 default
    queueFront := 0
    queueRear := 0
    queueCount := 0 }

/-! ## Machine state (the global variables of src/main.cpp)

`pumpPower` and `heaterPower` record the last value written with
`ledcWrite` on the pump and heater LEDC channels; `speedCmd` in a servo
state records the last `servoObject.write`. -/

/-- C cast of a float to a signed integer (truncation toward zero). -/
def truncToInt (x : ℚ) : Int := if 0 ≤ x then ⌊x⌋ else ⌈x⌉

def PULSE_PRINT_INTERVAL : Nat := 500

/-- `ServoControlState` (src/main.cpp lines 157-166) without the hardware
    `Servo&` reference; `speedCmd` models the commanded servo speed. -/
structure ServoControlState where
  forwardSpeed : Nat
  reverseSpeed : Nat
  isRunning : Bool
  stopTime : Nat
  periodStartTime : Nat
  isForward : Bool
  sid : Char
  speedCmd : Nat
deriving DecidableEq

structure MachineState where
  currentDuty1 : ℚ
  targetDuty1 : ℚ
  currentRpm2 : ℚ
  targetRpm2 : ℚ
  pulseCount : Nat
  lastPulseCount : Nat
  dispensedVolumeML : ℚ
  currentFlowRateMLPS : ℚ
  targetVolumeML : ℚ
  targetFlowRateMLPS : ℚ
  dispensingActive : Bool
  lastFlowCalcTime : Nat
  lastControlTime : Nat
  lastPulsePrintTime : Nat
  pidError : ℚ
  lastError : ℚ
  integralError : ℚ
  derivativeError : ℚ
  pidOutput : ℚ
  feedforwardDuty : Int
  dispenseStartTime : Nat
  pumpPower : Int
  heaterActive : Bool
  pumpUsedSinceHeaterOn : Bool
  heaterStartTime : Nat
  generalDelayEndTime : Nat
  heaterPower : Int
  servoAState : ServoControlState
  servoBState : ServoControlState
  servoCState : ServoControlState
  servoDState : ServoControlState
  queue : QueueState
deriving DecidableEq

/-- Arming a servo inside the `CMD_S` case of `executeCommandFromQueue`
    (src/main.cpp lines 700-712): mark running, set the stop time, start a
    forward period now and command the forward speed immediately. -/
def armServo (st : ServoControlState) (currentTime durationMillis : Nat) :
    ServoControlState :=
  { st with
    isRunning := true
    stopTime := currentTime + durationMillis
    periodStartTime := currentTime
    isForward := true
    speedCmd := st.forwardSpeed }

/-- `updateServo` (src/main.cpp lines 863-902). -/
def updateServo (st : ServoControlState) (currentTime : Nat) : ServoControlState :=
  if st.isRunning = false then st
  else if currentTime ≥ st.stopTime then
    { st with speedCmd := SERVO_STOP_SPEED, isRunning := false }
  else
    let timeInPeriod := currentTime - st.periodStartTime
    if st.isForward then
      if timeInPeriod ≥ FORWARD_DURATION_MS then
        { st with speedCmd := st.reverseSpeed, isForward := false }
      else st
    else
      if timeInPeriod ≥ SERVO_PERIOD_MS then
        { st with
          speedCmd := st.forwardSpeed
          isForward := true
          periodStartTime := currentTime }
      else st

/-- The effect of one dequeued command (the `switch` of
    `executeCommandFromQueue`, src/main.cpp lines 609-725). -/
def executeCommand (s : MachineState) (cmd : Command) (now : Nat) : MachineState :=
  match cmd.type with
  | CMD_R => { s with targetRpm2 := cmd.value1 }
  | CMD_G => { s with targetDuty1 := constrainQ cmd.value1 (-1) 1 }
  | CMD_P =>
      if s.dispensingActive = false then
        { s with
          targetVolumeML := cmd.value1
          targetFlowRateMLPS := cmd.value2
          dispensedVolumeML := 0
          pulseCount := 0
          lastPulseCount := 0
          lastPulsePrintTime := 0
          currentFlowRateMLPS := 0
          pidError := 0
          lastError := 0
          integralError := 0
          derivativeError := 0
          pidOutput := 0
          feedforwardDuty := calculateFeedforwardDuty cmd.value2
          dispenseStartTime := now
          lastFlowCalcTime := now
          lastControlTime := now
          dispensingActive := true
          pumpUsedSinceHeaterOn := true
          pumpPower := calculateFeedforwardDuty cmd.value2 }
      else s
  | CMD_H =>
      -- heaterDuty = map(constrain((int)value1, 0, 100), 0, 100, 0, 255)
      let heaterDuty := constrainI (truncToInt cmd.value1) 0 100 * 255 / 100
      if heaterDuty > 0 then
        { s with
          heaterPower := heaterDuty
          heaterActive := true
          heaterStartTime := now
          pumpUsedSinceHeaterOn := false }
      else { s with heaterPower := heaterDuty, heaterActive := false }
  | CMD_S =>
      let durationMillis := truncToNat (cmd.value1 * 1000)
      if cmd.id = 'A' then
        { s with servoAState := armServo s.servoAState now durationMillis }
      else if cmd.id = 'B' then
        { s with servoBState := armServo s.servoBState now durationMillis }
      else if cmd.id = 'C' then
        { s with servoCState := armServo s.servoCState now durationMillis }
      else if cmd.id = 'D' then
        { s with servoDState := armServo s.servoDState now durationMillis }
      else s
  | CMD_D => { s with generalDelayEndTime := now + truncToNat cmd.value1 }
  | CMD_INVALID => s

/-- `executeCommandFromQueue` (src/main.cpp lines 593-727): when the queue is
    non-empty and the delay gate has passed, pop the front command and run
    its effect; otherwise do nothing. -/
def executeCommandFromQueue (s : MachineState) (now : Nat) : MachineState :=
  if s.queue.queueCount > 0 ∧ now ≥ s.generalDelayEndTime then
    let cmd := s.queue.cmdQueue.getD s.queue.queueFront default
    executeCommand
      { s with queue :=
          { s.queue with
            queueFront := (s.queue.queueFront + 1) % QUEUE_SIZE
            queueCount := s.queue.queueCount - 1 } }
      cmd now
  else s

/-- The pulse-count print task of `updateWaterPump` (src/main.cpp 738-747);
    its only state effect is the print timer. -/
def pulsePrintTask (s : MachineState) (currentTime : Nat) : MachineState :=
  if currentTime - s.lastPulsePrintTime ≥ PULSE_PRINT_INTERVAL then
    { s with lastPulsePrintTime := currentTime }
  else s

/-- The flow-rate calculation task of `updateWaterPump`
    (src/main.cpp lines 751-776). -/
def flowCalcTask (s : MachineState) (currentTime : Nat) : MachineState :=
  if currentTime - s.lastFlowCalcTime ≥ flowCalcInterval then
    let deltaPulses := s.pulseCount - s.lastPulseCount
    let deltaTimeSeconds : ℚ := ((currentTime - s.lastFlowCalcTime : Nat) : ℚ) / 1000
    let s1 := { s with
      lastFlowCalcTime := currentTime
      lastPulseCount := s.pulseCount }
    if deltaTimeSeconds > 1/1000 then
      let pps : ℚ := (deltaPulses : ℚ) / deltaTimeSeconds
      let ticksPerML_est := getTicksPerML s.targetFlowRateMLPS
        (if s.currentFlowRateMLPS > 1/20 then s.currentFlowRateMLPS
         else s.targetFlowRateMLPS)
      if ticksPerML_est > 1/10 then
        { s1 with
          currentFlowRateMLPS := pps / ticksPerML_est
          dispensedVolumeML :=
            s.dispensedVolumeML + (deltaPulses : ℚ) / ticksPerML_est }
      else { s1 with currentFlowRateMLPS := 0 }
    else s1
  else s

/-- The PID control task of `updateWaterPump` (src/main.cpp lines 780-809). -/
def pidControlTask (s : MachineState) (currentTime : Nat) : MachineState :=
  if currentTime - s.lastControlTime ≥ controlInterval then
    let dt : ℚ := ((currentTime - s.lastControlTime : Nat) : ℚ) / 1000
    let s1 := { s with lastControlTime := currentTime }
    if dt > 1/1000 then
      let err := s.targetFlowRateMLPS - s.currentFlowRateMLPS
      let integ := constrainQ (s.integralError + err * dt) (-maxIntegral) maxIntegral
      let deriv := (err - s.lastError) / dt
      let out := kp * err + ki * integ + kd * deriv
      let totalDuty := constrainI
        (calculateFeedforwardDuty s.targetFlowRateMLPS + roundHalfAway out) 0 255
      { s1 with
        pidError := err
        integralError := integ
        derivativeError := deriv
        pidOutput := out
        lastError := err
        pumpPower := totalDuty }
    else s1
  else s

/-- The stop condition of `updateWaterPump` (src/main.cpp lines 813-839):
    when the accumulated volume reaches the target, stop the pump, leave the
    Dispensing state, and if the heater is active arm the post-pump cooldown
    delay. -/
def checkStopCondition (s : MachineState) (now : Nat) : MachineState :=
  if s.dispensedVolumeML ≥ s.targetVolumeML then
    if s.heaterActive then
      { s with
        pumpPower := 0
        dispensingActive := false
        generalDelayEndTime := now + POST_PUMP_COOLDOWN }
    else { s with pumpPower := 0, dispensingActive := false }
  else s

/-- `updateWaterPump` (src/main.cpp lines 730-840). -/
def updateWaterPump (s : MachineState) (currentTime : Nat) : MachineState :=
  if s.dispensingActive = false then s
  else
    checkStopCondition
      (pidControlTask (flowCalcTask (pulsePrintTask s currentTime) currentTime)
        currentTime)
      currentTime

/-- The pump-stop time estimate of safety rule 2 (src/main.cpp line 921). -/
def estPumpStopTime (s : MachineState) : Nat :=
  s.dispenseStartTime +
    truncToNat ((s.dispensedVolumeML /
      (if s.targetFlowRateMLPS > 0 then s.targetFlowRateMLPS else 1)) * 1000)

/-- Safety rule 1 (src/main.cpp lines 910-914): heater timeout when the pump
    has not been used since the heater was switched on. -/
def heaterTimeoutCheck (s : MachineState) (currentTime : Nat) : MachineState :=
  if s.heaterActive = true ∧ s.pumpUsedSinceHeaterOn = false ∧
      currentTime - s.heaterStartTime > HEATER_TIMEOUT then
    { s with heaterPower := 0, heaterActive := false }
  else s

/-- Safety rule 2 (src/main.cpp lines 916-930): post-pump heater cooldown,
    gated by the timestamp-plausibility heuristic. -/
def postPumpCooldownCheck (s : MachineState) (currentTime : Nat) : MachineState :=
  if s.dispensingActive = false ∧ s.heaterActive = true ∧
      s.generalDelayEndTime > 0 ∧ currentTime ≥ s.generalDelayEndTime then
    if s.generalDelayEndTime > estPumpStopTime s ∧
        s.generalDelayEndTime < estPumpStopTime s + POST_PUMP_COOLDOWN + 200 then
      { s with heaterPower := 0, heaterActive := false }
    else s
  else s

/-- `checkSafetyFeatures` (src/main.cpp lines 906-934). -/
def checkSafetyFeatures (s : MachineState) (currentTime : Nat) : MachineState :=
  postPumpCooldownCheck (heaterTimeoutCheck s currentTime) currentTime

/-- The state right after `setup()` (src/main.cpp lines 120-192, 940-1036):
    all numeric state zero, nothing active, servos stopped at speed 90 with
    their per-servo forward/reverse speeds, empty queue. -/
def bootMachine : MachineState :=
  { currentDuty1 := 0, targetDuty1 := 0, currentRpm2 := 0, targetRpm2 := 0
    pulseCount := 0, lastPulseCount := 0, dispensedVolumeML := 0
    currentFlowRateMLPS := 0, targetVolumeML := 0, targetFlowRateMLPS := 0
    dispensingActive := false, lastFlowCalcTime := 0, lastControlTime := 0
    lastPulsePrintTime := 0, pidError := 0, lastError := 0, integralError := 0
    derivativeError := 0, pidOutput := 0, feedforwardDuty := 0
    dispenseStartTime := 0, pumpPower := 0, heaterActive := false
    pumpUsedSinceHeaterOn := false, heaterStartTime := 0
    generalDelayEndTime := 0, heaterPower := 0
    servoAState :=
      { forwardSpeed := 135, reverseSpeed := 45, isRunning := false
        stopTime := 0, periodStartTime := 0, isForward := true, sid := 'A'
        speedCmd := SERVO_STOP_SPEED }
    servoBState :=
      { forwardSpeed := 135, reverseSpeed := 45, isRunning := false
        stopTime := 0, periodStartTime := 0, isForward := true, sid := 'B'
        speedCmd := SERVO_STOP_SPEED }
    servoCState :=
      { forwardSpeed := 135, reverseSpeed := 45, isRunning := false
        stopTime := 0, periodStartTime := 0, isForward := true, sid := 'C'
        speedCmd := SERVO_STOP_SPEED }
    servoDState :=
      { forwardSpeed := 45, reverseSpeed := 135, isRunning := false
        stopTime := 0, periodStartTime := 0, isForward := true, sid := 'D'
        speedCmd := SERVO_STOP_SPEED }
    queue := bootQueue }

/-- Witness state for C1: a session 10 mL past its 5 mL target, observed at a
    pass where all three periodic tasks are still inside their intervals. -/
def c1State : MachineState :=
  { bootMachine with
    dispensingActive := true
    targetVolumeML := 5
    dispensedVolumeML := 10
    heaterActive := true
    pumpPower := 200 }

/-- Witness state for C4: the boot state with a single `D-2000` command
    queued. -/
def c4State : MachineState :=
  { bootMachine with
    queue := enqueueOne bootQueue { type := CMD_D, value1 := 2000 } }

/-- A machine whose heater went on at `t0 = 0` with no dispense since. -/
def c5State : MachineState :=
  { bootMachine with
    heaterActive := true
    heaterStartTime := 0
    pumpUsedSinceHeaterOn := false
    heaterPower := 255 }

/-- Witness state for C7: an active 50 mL session with a second
    `P-30-2` command at the queue front. -/
def c7State : MachineState :=
  { bootMachine with
    dispensingActive := true
    targetVolumeML := 50
    targetFlowRateMLPS := 5/2
    dispensedVolumeML := 7
    pumpPower := 120
    queue := enqueueOne bootQueue { type := CMD_P, value1 := 30, value2 := 2 } }

/-- A state reachable after: heater on, `P-50-2` dispatched (so
`pumpUsedSinceHeaterOn = true`), the pump running slower than the 2 mL/s
target so that the 50 mL complete only at t = 40000 ms, when the completion
code armed `generalDelayEndTime = 40000 + POST_PUMP_COOLDOWN = 41000`. -/
def c9State : MachineState :=
  { bootMachine with
    dispensingActive := false
    heaterActive := true
    heaterPower := 255
    pumpUsedSinceHeaterOn := true
    dispenseStartTime := 0
    targetVolumeML := 50
    targetFlowRateMLPS := 2
    dispensedVolumeML := 50
    generalDelayEndTime := 41000 }

/-- Witness state for the amended C9: same completed dispense, but with the
    cooldown deadline inside the plausibility window. -/
def c9WitnessState : MachineState :=
  { c9State with generalDelayEndTime := 26000 }

/-! ## C8: periodic servo motion

`simServo st t k` runs `updateServo` once per millisecond — the finest
granularity `millis()` can distinguish, and `updateServo` is idempotent at a
fixed timestamp — at times `t+1, …, t+k` starting from state `st`. -/

def simServo (st : ServoControlState) (t : Nat) : Nat → ServoControlState
  | 0 => st
  | k+1 => updateServo (simServo st t k) (t + (k+1))

/-- Closed form of the servo state `k` ms after arming at `t` for `D` ms:
    while `k < D` the servo runs, the current period began at
    `t + T·⌊k/T⌋`, and the phase is forward exactly when `k mod T` is below
    the forward duration; from `k = D` on it is stopped at the neutral
    speed. -/
def servoPhaseSpec (st : ServoControlState) (t D k : Nat) : ServoControlState :=
  if k < D then
    { st with
      isRunning := true
      stopTime := t + D
      periodStartTime := t + SERVO_PERIOD_MS * (k / SERVO_PERIOD_MS)
      isForward := decide (k % SERVO_PERIOD_MS < FORWARD_DURATION_MS)
      speedCmd := if k % SERVO_PERIOD_MS < FORWARD_DURATION_MS then
          st.forwardSpeed
        else st.reverseSpeed }
  else
    { st with
      isRunning := false
      stopTime := t + D
      periodStartTime := t + SERVO_PERIOD_MS * ((D-1) / SERVO_PERIOD_MS)
      isForward := decide ((D-1) % SERVO_PERIOD_MS < FORWARD_DURATION_MS)
      speedCmd := SERVO_STOP_SPEED }

/-! ## Ramp lemmas -/

theorem constrainQ_eq_self {x lo hi : ℚ} (h1 : lo ≤ x) (h2 : x ≤ hi) :
    constrainQ x lo hi = x := by
  unfold constrainQ
  rw [if_neg (not_lt.mpr h1), if_neg (not_lt.mpr h2)]

/-- Distance to the target after one ramp step. -/
theorem rampStep_dist (s c t : ℚ) (hs : 0 < s) :
    |rampStep s c t - t| = max (|c - t| - s) 0 := by
  unfold rampStep
  rcases le_or_lt |t - c| s with h1 | h1
  · rw [if_pos h1, sub_self, abs_zero, abs_sub_comm,
      max_eq_right (by linarith)]
  · rw [if_neg (not_le.mpr h1)]
    rcases lt_trichotomy (t - c) 0 with hd | hd | hd
    · rw [if_neg (by linarith), abs_sub_comm c t]
      have habs : |t - c| = -(t - c) := abs_of_neg hd
      rw [habs] at h1
      have he : c + -s - t = -(t - c) - s := by ring
      rw [he, abs_of_pos (by linarith), habs, max_eq_left (by linarith)]
    · rw [hd, abs_zero] at h1; linarith
    · rw [if_pos hd, abs_sub_comm c t]
      have habs : |t - c| = t - c := abs_of_pos hd
      rw [habs] at h1
      have he : c + s - t = -((t - c) - s) := by ring
      rw [he, abs_neg, abs_of_pos (by linarith), habs,
        max_eq_left (by linarith)]

/-- A ramp step stays inside the closed interval spanned by `c` and `t`. -/
theorem rampStep_mem (s c t : ℚ) (hs : 0 < s) :
    min c t ≤ rampStep s c t ∧ rampStep s c t ≤ max c t := by
  unfold rampStep
  rcases le_or_lt |t - c| s with h1 | h1
  · rw [if_pos h1]
    exact ⟨min_le_right c t, le_max_right c t⟩
  · rw [if_neg (not_le.mpr h1)]
    rcases lt_trichotomy (t - c) 0 with hd | hd | hd
    · have habs : |t - c| = -(t - c) := abs_of_neg hd
      rw [habs] at h1
      rw [if_neg (by linarith)]
      constructor
      · exact le_trans (min_le_right c t) (by linarith)
      · exact le_trans (by linarith) (le_max_left c t)
    · rw [hd, abs_zero] at h1; linarith
    · have habs : |t - c| = t - c := abs_of_pos hd
      rw [habs] at h1
      rw [if_pos hd]
      constructor
      · exact le_trans (min_le_left c t) (by linarith)
      · exact le_trans (by linarith) (le_max_right c t)

/-- Distance to the target after `n` ramp steps. -/
theorem rampStep_iter_dist (s t : ℚ) (hs : 0 < s) (n : ℕ) (c : ℚ) :
    |(fun x => rampStep s x t)^[n] c - t| = max (|c - t| - n * s) 0 := by
  induction n generalizing c with
  | zero => simp [max_eq_left (abs_nonneg (c - t))]
  | succ n ih =>
      rw [Function.iterate_succ_apply, ih (rampStep s c t), rampStep_dist s c t hs]
      push_cast
      have hns : 0 ≤ (n : ℚ) * s := by positivity
      have hexp : ((n : ℚ) + 1) * s = (n : ℚ) * s + s := by ring
      rcases le_or_lt s |c - t| with h | h
      · rw [show (|c - t| - s) ⊔ 0 = |c - t| - s from max_eq_left (by linarith)]
        congr 1
        ring
      · rw [show (|c - t| - s) ⊔ 0 = (0:ℚ) from max_eq_right (by linarith)]
        rw [max_eq_right (by linarith), max_eq_right (by linarith)]

/-- The iterate of `rampStep` reaches the target exactly at step
    `⌈|c - t| / s⌉` and not before. -/
theorem rampStep_reach (s t : ℚ) (hs : 0 < s) (c : ℚ) :
    (fun x => rampStep s x t)^[(⌈|t - c| / s⌉).toNat] c = t ∧
    ∀ m : ℕ, m < (⌈|t - c| / s⌉).toNat → (fun x => rampStep s x t)^[m] c ≠ t := by
  have hd : |t - c| = |c - t| := abs_sub_comm t c
  have hnn : 0 ≤ |c - t| / s := by positivity
  constructor
  · have h1 := rampStep_iter_dist s t hs (⌈|t - c| / s⌉).toNat c
    have hle : |c - t| / s ≤ ((⌈|t - c| / s⌉).toNat : ℚ) := by
      rw [hd]
      have h2 : (|c - t| / s) ≤ (⌈|c - t| / s⌉ : ℚ) := Int.le_ceil _
      have h3 : (⌈|c - t| / s⌉ : ℚ) = ((⌈|c - t| / s⌉).toNat : ℚ) := by
        exact_mod_cast (Int.toNat_of_nonneg (Int.ceil_nonneg hnn)).symm
      linarith
    have hzero : |c - t| - ((⌈|t - c| / s⌉).toNat : ℚ) * s ≤ 0 := by
      have := (div_le_iff₀ hs).mp hle
      linarith
    have h4 : |(fun x => rampStep s x t)^[(⌈|t - c| / s⌉).toNat] c - t| = 0 := by
      rw [h1, max_eq_right hzero]
    have h5 := abs_eq_zero.mp h4
    linarith
  · intro m hm
    have h1 := rampStep_iter_dist s t hs m c
    have hmz : (m : ℤ) < ⌈|t - c| / s⌉ := Int.lt_toNat.mp hm
    have hlt : (m : ℚ) < |c - t| / s := by
      have h2 : (m : ℤ) + 1 ≤ ⌈|t - c| / s⌉ := by omega
      have h3 : ((m : ℚ) + 1) ≤ (⌈|t - c| / s⌉ : ℚ) := by exact_mod_cast h2
      have h4 : (⌈|t - c| / s⌉ : ℚ) < |t - c| / s + 1 := Int.ceil_lt_add_one _
      rw [hd] at h3 h4
      linarith
    have hpos : 0 < |c - t| - (m : ℚ) * s := by
      have := (lt_div_iff₀ hs).mp hlt
      linarith
    intro heq
    rw [heq] at h1
    simp only [sub_self, abs_zero] at h1
    rw [max_eq_left (by linarith)] at h1
    linarith

/-- Inside `[-1, 1]` the trailing `constrain` of `stepDuty1` is the identity. -/
theorem stepDuty1_eq_rampStep {c t : ℚ} (hc1 : -1 ≤ c) (hc2 : c ≤ 1)
    (ht1 : -1 ≤ t) (ht2 : t ≤ 1) :
    stepDuty1 c t = rampStep DUTY_STEP_SIZE c t := by
  have hs : (0:ℚ) < DUTY_STEP_SIZE := by norm_num [DUTY_STEP_SIZE]
  obtain ⟨h1, h2⟩ := rampStep_mem DUTY_STEP_SIZE c t hs
  exact constrainQ_eq_self (le_trans (le_min hc1 ht1) h1)
    (le_trans h2 (max_le hc2 ht2))

/-- Iterating `stepDuty1` from inside `[-1, 1]` toward a target in `[-1, 1]`
    agrees with iterating the bare ramp step. -/
theorem stepDuty1_iter_eq {t : ℚ} (ht1 : -1 ≤ t) (ht2 : t ≤ 1) :
    ∀ (n : ℕ) (c : ℚ), -1 ≤ c → c ≤ 1 →
      (fun x => stepDuty1 x t)^[n] c = (fun x => rampStep DUTY_STEP_SIZE x t)^[n] c := by
  intro n
  induction n with
  | zero => intro c _ _; rfl
  | succ n ih =>
      intro c hc1 hc2
      rw [Function.iterate_succ_apply, Function.iterate_succ_apply]
      have hs : (0:ℚ) < DUTY_STEP_SIZE := by norm_num [DUTY_STEP_SIZE]
      obtain ⟨h1, h2⟩ := rampStep_mem DUTY_STEP_SIZE c t hs
      rw [show stepDuty1 c t = rampStep DUTY_STEP_SIZE c t from
        stepDuty1_eq_rampStep hc1 hc2 ht1 ht2]
      exact ih (rampStep DUTY_STEP_SIZE c t)
        (le_trans (le_min hc1 ht1) h1) (le_trans h2 (max_le hc2 ht2))

/-- C3: each ramp step of the grinder duty controller (step `DUTY_STEP_SIZE`)
and of the drum RPM controller (step `RPM_STEP_SIZE`) moves `current` toward
`target` by `min(stepSize, |target - current|)` in the correct sign: the
distance to the target becomes `max (|current - target| - stepSize) 0`, hence
never increases; `current` snaps exactly to `target` when within one step of
it; and starting from `current₀` the controller equals `target` after exactly
`⌈|target - current₀| / stepSize⌉` steps and at no earlier step.  For the duty
controller the inputs are restricted to `[-1, 1]`, the invariant the firmware
maintains (`executeCommandFromQueue` clamps `targetDuty1` with
`constrain(cmd.value1, -1.0f, 1.0f)` and `stepDuty1` clamps the current
duty). -/
theorem C3_ramp_step_convergence (c t c2 t2 : ℚ)
    (hc1 : -1 ≤ c) (hc2 : c ≤ 1) (ht1 : -1 ≤ t) (ht2 : t ≤ 1) :
    (|stepDuty1 c t - t| = max (|c - t| - DUTY_STEP_SIZE) 0) ∧
    (|stepRpm2 c2 t2 - t2| = max (|c2 - t2| - RPM_STEP_SIZE) 0) ∧
    (|stepDuty1 c t - t| ≤ |c - t|) ∧
    (|stepRpm2 c2 t2 - t2| ≤ |c2 - t2|) ∧
    (|c - t| ≤ DUTY_STEP_SIZE → stepDuty1 c t = t) ∧
    (|c2 - t2| ≤ RPM_STEP_SIZE → stepRpm2 c2 t2 = t2) ∧
    ((fun x => stepDuty1 x t)^[(⌈|t - c| / DUTY_STEP_SIZE⌉).toNat] c = t) ∧
    (∀ m, m < (⌈|t - c| / DUTY_STEP_SIZE⌉).toNat →
      (fun x => stepDuty1 x t)^[m] c ≠ t) ∧
    ((fun x => stepRpm2 x t2)^[(⌈|t2 - c2| / RPM_STEP_SIZE⌉).toNat] c2 = t2) ∧
    (∀ m, m < (⌈|t2 - c2| / RPM_STEP_SIZE⌉).toNat →
      (fun x => stepRpm2 x t2)^[m] c2 ≠ t2) := by
  have hsd : (0:ℚ) < DUTY_STEP_SIZE := by norm_num [DUTY_STEP_SIZE]
  have hsr : (0:ℚ) < RPM_STEP_SIZE := by norm_num [RPM_STEP_SIZE]
  have hDeq : stepDuty1 c t = rampStep DUTY_STEP_SIZE c t :=
    stepDuty1_eq_rampStep hc1 hc2 ht1 ht2
  refine ⟨?_, ?_, ?_, ?_, ?_, ?_, ?_, ?_, ?_, ?_⟩
  · rw [hDeq]; exact rampStep_dist _ c t hsd
  · exact rampStep_dist _ c2 t2 hsr
  · rw [hDeq, rampStep_dist _ c t hsd]
    exact max_le (by linarith) (abs_nonneg _)
  · rw [show stepRpm2 c2 t2 = rampStep RPM_STEP_SIZE c2 t2 from rfl,
      rampStep_dist _ c2 t2 hsr]
    exact max_le (by linarith) (abs_nonneg _)
  · intro h
    rw [hDeq]
    unfold rampStep
    rw [if_pos (by rw [abs_sub_comm]; exact h)]
  · intro h
    unfold stepRpm2 rampStep
    rw [if_pos (by rw [abs_sub_comm]; exact h)]
  · rw [stepDuty1_iter_eq ht1 ht2 _ c hc1 hc2]
    exact (rampStep_reach DUTY_STEP_SIZE t hsd c).1
  · intro m hm
    rw [stepDuty1_iter_eq ht1 ht2 m c hc1 hc2]
    exact (rampStep_reach DUTY_STEP_SIZE t hsd c).2 m hm
  · exact (rampStep_reach RPM_STEP_SIZE t2 hsr c2).1
  · exact (rampStep_reach RPM_STEP_SIZE t2 hsr c2).2

/-- Witness for C3: grinder ramp from duty `0` toward `1/2`, drum ramp from
    `0` RPM toward `10` RPM. -/
theorem C3_ramp_step_convergence_witness :
    (|stepDuty1 0 (1/2) - 1/2| = max (|(0:ℚ) - 1/2| - DUTY_STEP_SIZE) 0) ∧
    ((fun x => stepRpm2 x 10)^[(⌈|(10:ℚ) - 0| / RPM_STEP_SIZE⌉).toNat] 0 = 10) := by
  have h := C3_ramp_step_convergence 0 (1/2) 0 10
    (by norm_num) (by norm_num) (by norm_num) (by norm_num)
  exact ⟨h.1, h.2.2.2.2.2.2.2.2.1⟩

/-- C10: for every flow-rate argument and every value of the global
`targetFlowRateMLPS`, `getTicksPerML` returns a value strictly greater than
`0.1` (falling back to the target-rate curve value or to `1.0` when the
calibration polynomial is non-positive), so the flow-rate and volume
conversions in `updateWaterPump` that divide by it never divide by zero or by
a negative calibration value. -/
theorem C10_getTicksPerML_positive (tgt f : ℚ) :
    1/10 < getTicksPerML tgt f ∧ getTicksPerML tgt f ≠ 0 := by
  have h : 1/10 < getTicksPerML tgt f := by
    unfold getTicksPerML
    rcases le_or_lt (calibTicksPerML f) (1/10 : ℚ) with h1 | h1
    · rw [if_pos h1]
      by_cases h2 : f < 1/10 ∧ 1/10 < tgt
      · rw [if_pos h2]
        rcases le_or_lt (calibTicksPerML tgt) (1/10 : ℚ) with h3 | h3
        · rw [if_pos h3]; norm_num
        · rw [if_neg (not_le.mpr h3)]; exact h3
      · rw [if_neg h2]; norm_num
    · rw [if_neg (not_le.mpr h1)]; exact h1
  refine ⟨h, ?_⟩
  intro hz
  rw [hz] at h
  norm_num at h

theorem countValid_eq_length (input : List Char) :
    countValidCommandsInString input = (validCommandsOf input).length := by
  unfold countValidCommandsInString validCommandsOf
  rw [List.countP_eq_length_filter, List.filter_map, List.length_map]
  rfl

theorem enqueueOne_spec {q : QueueState} (c : Command) (hwf : QueueWF q)
    (hlt : q.queueCount < QUEUE_SIZE) :
    QueueWF (enqueueOne q c) ∧
    queueList (enqueueOne q c) = queueList q ++ [c] ∧
    (enqueueOne q c).queueCount = q.queueCount + 1 := by
  obtain ⟨hlen, hcnt, hfr, hrear⟩ := hwf
  have hq : enqueueOne q c =
      { cmdQueue := q.cmdQueue.set q.queueRear c
        queueFront := q.queueFront
        queueRear := (q.queueRear + 1) % QUEUE_SIZE
        queueCount := q.queueCount + 1 } := by
    unfold enqueueOne
    rw [if_pos hlt]
  rw [hq]
  have h20 : QUEUE_SIZE = 20 := rfl
  refine ⟨⟨?_, ?_, ?_, ?_⟩, ?_, rfl⟩
  · simpa using hlen
  · simpa using hlt
  · exact hfr
  · dsimp only
    rw [hrear, h20]
    omega
  · unfold queueList
    dsimp only
    rw [List.range_succ, List.map_append, List.map_cons, List.map_nil]
    congr 1
    · apply List.map_congr_left
      intro i hi
      have hiLt : i < q.queueCount := List.mem_range.mp hi
      have hne : q.queueRear ≠ (q.queueFront + i) % QUEUE_SIZE := by
        rw [hrear, h20]
        have hlt' : q.queueCount < 20 := by rw [h20] at hlt; exact hlt
        have hfr' : q.queueFront < 20 := by rw [h20] at hfr; exact hfr
        omega
      rw [List.getD_eq_getElem?_getD, List.getD_eq_getElem?_getD,
        List.getElem?_set_ne hne]
    · have hlt2 : q.queueRear < q.cmdQueue.length := by
        rw [hlen, hrear, h20]
        omega
      rw [List.getD_eq_getElem?_getD,
        show (q.queueFront + q.queueCount) % QUEUE_SIZE = q.queueRear from hrear.symm,
        List.getElem?_set_eq_of_lt c hlt2]
      rfl

theorem foldl_enqueueStep_spec (ts : List (List Char)) :
    ∀ q : QueueState, QueueWF q →
      q.queueCount +
        ((ts.map parseToken).filter (fun c => c.type != CMD_INVALID)).length ≤
        QUEUE_SIZE →
      QueueWF (ts.foldl enqueueStep q) ∧
      queueList (ts.foldl enqueueStep q) =
        queueList q ++ (ts.map parseToken).filter (fun c => c.type != CMD_INVALID) ∧
      (ts.foldl enqueueStep q).queueCount =
        q.queueCount +
          ((ts.map parseToken).filter (fun c => c.type != CMD_INVALID)).length := by
  induction ts with
  | nil =>
      intro q hwf _
      exact ⟨hwf, by simp [queueList], by simp⟩
  | cons t ts ih =>
      intro q hwf hfit
      rw [List.foldl_cons]
      by_cases hv : (parseToken t).type = CMD_INVALID
      · have hstep : enqueueStep q t = q := by
          unfold enqueueStep
          rw [if_neg (not_not_intro hv)]
        have hfilter : ((t :: ts).map parseToken).filter
            (fun c => c.type != CMD_INVALID) =
            (ts.map parseToken).filter (fun c => c.type != CMD_INVALID) := by
          rw [List.map_cons, List.filter_cons]
          simp [hv]
        rw [hfilter] at hfit
        rw [hstep, hfilter]
        exact ih q hwf hfit
      · have hstep : enqueueStep q t = enqueueOne q (parseToken t) := by
          unfold enqueueStep
          rw [if_pos hv]
        have hfilter : ((t :: ts).map parseToken).filter
            (fun c => c.type != CMD_INVALID) =
            parseToken t ::
              (ts.map parseToken).filter (fun c => c.type != CMD_INVALID) := by
          rw [List.map_cons, List.filter_cons]
          simp [hv]
        rw [hfilter] at hfit ⊢
        have hlt : q.queueCount < QUEUE_SIZE := by
          rw [List.length_cons] at hfit
          omega
        obtain ⟨hwf1, hlist1, hcnt1⟩ := enqueueOne_spec (parseToken t) hwf hlt
        rw [hstep]
        obtain ⟨hwf2, hlist2, hcnt2⟩ := ih (enqueueOne q (parseToken t)) hwf1
          (by rw [hcnt1, List.length_cons] at *; omega)
        refine ⟨hwf2, ?_, ?_⟩
        · rw [hlist2, hlist1, List.append_assoc]
          rfl
        · rw [hcnt2, hcnt1, List.length_cons]
          omega

/-- C2: queue admission is atomic.  For every input line whose count `k` of
valid tokens exceeds the queue's free space, `submitCommandLine` enqueues
nothing — the returned queue is exactly the old one (contents, front/rear
indices and count unchanged) — and reports `required = k` together with the
available slot count; otherwise every valid token of the line is enqueued,
in order, behind the existing contents. -/
theorem C2_queue_admission_atomic (q : QueueState) (input : List Char)
    (hwf : QueueWF q) :
    (countValidCommandsInString input > QUEUE_SIZE - q.queueCount →
      (submitCommandLine q input).queue = q ∧
      (submitCommandLine q input).required = countValidCommandsInString input ∧
      (submitCommandLine q input).available = QUEUE_SIZE - q.queueCount ∧
      (submitCommandLine q input).accepted = false) ∧
    (countValidCommandsInString input ≤ QUEUE_SIZE - q.queueCount →
      queueList (submitCommandLine q input).queue =
        queueList q ++ validCommandsOf input ∧
      (submitCommandLine q input).required = countValidCommandsInString input ∧
      (submitCommandLine q input).available = QUEUE_SIZE - q.queueCount) := by
  constructor
  · intro hgt
    have hne : countValidCommandsInString input ≠ 0 := by omega
    unfold submitCommandLine
    rw [if_neg hne, if_pos hgt]
    exact ⟨rfl, rfl, rfl, rfl⟩
  · intro hle
    by_cases h0 : countValidCommandsInString input = 0
    · have hnil : validCommandsOf input = [] := by
        have := countValid_eq_length input
        rw [h0] at this
        exact List.length_eq_zero.mp this.symm
      unfold submitCommandLine
      rw [if_pos h0]
      rw [hnil, List.append_nil]
      exact ⟨rfl, rfl, rfl⟩
    · unfold submitCommandLine
      rw [if_neg h0, if_neg (by omega)]
      have hcv := countValid_eq_length input
      unfold validCommandsOf at hcv
      have hfit : q.queueCount +
          (((tokensOf input).map parseToken).filter
            (fun c => c.type != CMD_INVALID)).length ≤ QUEUE_SIZE := by
        obtain ⟨-, hcnt, -, -⟩ := hwf
        omega
      obtain ⟨-, hlist, -⟩ := foldl_enqueueStep_spec (tokensOf input) q hwf hfit
      refine ⟨?_, rfl, rfl⟩
      unfold processAndEnqueueCommands validCommandsOf
      exact hlist

theorem bootQueue_wf : QueueWF bootQueue :=
  ⟨by decide, by decide, by decide, by decide⟩

set_option maxRecDepth 40000 in
/-- Witness for C2: an empty well-formed queue admits the two-command line
    `R-3000 G-0.5` and enqueues both commands in order. -/
theorem C2_queue_admission_atomic_witness :
    queueList (submitCommandLine bootQueue ("R-3000 G-0.5".toList)).queue =
      queueList bootQueue ++ validCommandsOf ("R-3000 G-0.5".toList) :=
  ((C2_queue_admission_atomic bootQueue ("R-3000 G-0.5".toList)
    bootQueue_wf).2 (by decide)).1

set_option maxRecDepth 40000 in
/-- C6 counterexample: `parseToken` enforces no flow-rate window.  The
constants `MIN_FLOW_RATE` and `MAX_FLOW_RATE` named by the claim exist
nowhere in the repository; the only rate validation in the `P` branch of
`parseToken` (src/main.cpp 292-309) is `rate > 0`.  Concretely, `P` tokens
with rates `1000000 mL/s` and `0.0001 mL/s` — spanning ten orders of
magnitude, so outside any bounded nondegenerate calibration window — are both
returned as valid Dispense commands, while `P-50-0` is Invalid. -/
theorem C6_parse_no_rate_window :
    (parseToken ("P-50-1000000".toList)).type = CMD_P ∧
    (parseToken ("P-50-1000000".toList)).value2 = 1000000 ∧
    (parseToken ("P-50-0.0001".toList)).type = CMD_P ∧
    (parseToken ("P-50-0.0001".toList)).value2 = mkRat 1 10000 ∧
    (parseToken ("P-50-0".toList)).type = CMD_INVALID := by
  decide

/-- C6 (amended): for every token of the form `P-<params>` whose parameter
part contains a dash at index `di`, the parser returns a valid Dispense
command iff the volume parsed before that dash and the rate parsed after it
are both strictly positive (otherwise the token is returned as Invalid);
the rate is only checked to be positive — there is no
`[MIN_FLOW_RATE, MAX_FLOW_RATE]` window in the code. -/
theorem C6_parseP_validation (params : List Char) (di : Nat)
    (hdi : params.findIdx? (fun c => c = '-') = some di) :
    ((parseToken ('P' :: '-' :: params)).type = CMD_P ↔
      0 < toFloat (params.take di) ∧ 0 < toFloat (params.drop (di + 1))) ∧
    ((parseToken ('P' :: '-' :: params)).type = CMD_P ∨
      (parseToken ('P' :: '-' :: params)).type = CMD_INVALID) := by
  have hlen : ¬(('P' :: '-' :: params).length < 3 ∨
      ('P' :: '-' :: params).get? 1 ≠ some '-') := by
    push_neg
    refine ⟨?_, rfl⟩
    cases params with
    | nil => simp at hdi
    | cons a as => simp [List.length_cons]
  unfold parseToken
  rw [if_neg hlen]
  have hhead : ('P' :: '-' :: params).headD ' ' = 'P' := rfl
  have hdrop : ('P' :: '-' :: params).drop 2 = params := rfl
  rw [hhead, hdrop]
  have hup : ('P').toUpper = 'P' := by decide
  rw [hup]
  rw [if_neg (by decide : ¬('P' = 'R')), if_neg (by decide : ¬('P' = 'G')),
    if_pos rfl, hdi]
  dsimp only
  by_cases hcond : toFloat (params.take di) ≤ 0 ∨ toFloat (params.drop (di+1)) ≤ 0
  · rw [if_pos hcond]
    refine ⟨⟨fun h => absurd h (by decide), fun h => ?_⟩, Or.inr rfl⟩
    rcases hcond with hc | hc
    · exact absurd h.1 (not_lt.mpr hc)
    · exact absurd h.2 (not_lt.mpr hc)
  · rw [if_neg hcond]
    push_neg at hcond
    exact ⟨iff_of_true rfl hcond, Or.inl rfl⟩

set_option maxRecDepth 40000 in
/-- Witness for the amended C6 at the token `P-50-2.5`. -/
theorem C6_parseP_validation_witness :
    ((parseToken ('P' :: '-' :: ("50-2.5".toList))).type = CMD_P ↔
      0 < toFloat (("50-2.5".toList).take 2) ∧
      0 < toFloat (("50-2.5".toList).drop 3)) ∧
    ((parseToken ('P' :: '-' :: ("50-2.5".toList))).type = CMD_P ∨
      (parseToken ('P' :: '-' :: ("50-2.5".toList))).type = CMD_INVALID) :=
  C6_parseP_validation ("50-2.5".toList) 2 (by decide)

/-! ## C1: dispense termination -/

theorem pulsePrintTask_preserves (s : MachineState) (now : Nat) :
    (pulsePrintTask s now).targetVolumeML = s.targetVolumeML ∧
    (pulsePrintTask s now).dispensingActive = s.dispensingActive ∧
    (pulsePrintTask s now).heaterActive = s.heaterActive := by
  refine ⟨?_, ?_, ?_⟩ <;> (unfold pulsePrintTask; split_ifs <;> rfl)

theorem flowCalcTask_preserves (s : MachineState) (now : Nat) :
    (flowCalcTask s now).targetVolumeML = s.targetVolumeML ∧
    (flowCalcTask s now).dispensingActive = s.dispensingActive ∧
    (flowCalcTask s now).heaterActive = s.heaterActive := by
  refine ⟨?_, ?_, ?_⟩ <;> (simp only [flowCalcTask]; split_ifs <;> rfl)

theorem pidControlTask_preserves (s : MachineState) (now : Nat) :
    (pidControlTask s now).targetVolumeML = s.targetVolumeML ∧
    (pidControlTask s now).dispensingActive = s.dispensingActive ∧
    (pidControlTask s now).heaterActive = s.heaterActive := by
  refine ⟨?_, ?_, ?_⟩ <;> (simp only [pidControlTask]; split_ifs <;> rfl)

/-- C1: for every active flow session with `targetVolume > 0`, on the first
update pass at which the accumulated dispensed volume (after this pass's
flow-calculation and PID tasks) has reached `targetVolume`, `updateWaterPump`
writes pump power zero and leaves the Dispensing state; and while Idle
(`dispensingActive = false`) every pass of `updateWaterPump` is the identity,
so the pump power set to zero at completion stays zero. -/
theorem C1_dispense_termination (s : MachineState) (now : Nat)
    (hact : s.dispensingActive = true) (htv : 0 < s.targetVolumeML)
    (hreach : s.targetVolumeML ≤
      (pidControlTask (flowCalcTask (pulsePrintTask s now) now) now).dispensedVolumeML) :
    (updateWaterPump s now).pumpPower = 0 ∧
    (updateWaterPump s now).dispensingActive = false ∧
    (∀ s2 : MachineState, s2.dispensingActive = false →
      updateWaterPump s2 now = s2) := by
  have hidle : ∀ s2 : MachineState, s2.dispensingActive = false →
      updateWaterPump s2 now = s2 := by
    intro s2 h2
    unfold updateWaterPump
    rw [h2, if_pos rfl]
  have hupd : updateWaterPump s now =
      checkStopCondition
        (pidControlTask (flowCalcTask (pulsePrintTask s now) now) now) now := by
    unfold updateWaterPump
    rw [hact, if_neg (by simp)]
  have htv' : (pidControlTask (flowCalcTask (pulsePrintTask s now) now)
      now).targetVolumeML = s.targetVolumeML := by
    rw [(pidControlTask_preserves _ now).1, (flowCalcTask_preserves _ now).1,
      (pulsePrintTask_preserves s now).1]
  have hge : (pidControlTask (flowCalcTask (pulsePrintTask s now) now)
        now).dispensedVolumeML ≥
      (pidControlTask (flowCalcTask (pulsePrintTask s now) now)
        now).targetVolumeML := by
    rw [htv']
    exact hreach
  rw [hupd]
  unfold checkStopCondition
  rw [if_pos hge]
  split_ifs <;> exact ⟨rfl, rfl, hidle⟩

/-- Witness for C1 at `c1State`, pass time 20 ms. -/
theorem C1_dispense_termination_witness :
    (updateWaterPump c1State 20).pumpPower = 0 ∧
    (updateWaterPump c1State 20).dispensingActive = false ∧
    (∀ s2 : MachineState, s2.dispensingActive = false →
      updateWaterPump s2 20 = s2) :=
  C1_dispense_termination c1State 20 (by decide) (by decide) (by decide)

/-! ## C4: Delay command gates all dispatch -/

theorem truncToNat_natCast (d : Nat) : truncToNat (d : ℚ) = d := by
  unfold truncToNat
  rw [Int.floor_natCast]
  exact Int.toNat_natCast d

/-- C4: dispatching a Delay command with duration `d` at time `now` sets
`generalDelayEndTime = now + d`; on every pass whose time is strictly before
`generalDelayEndTime` the dispatcher is the identity (no command of any kind
is popped); and whenever dispatch does run, exactly the front command is
consumed — the count drops by one, the front index advances by one
(mod capacity) and the stored commands are untouched — so the remaining
commands are dispatched in FIFO order, at most one per pass. -/
theorem C4_delay_gates_dispatch (s : MachineState) (now d : Nat)
    (hcnt : 0 < s.queue.queueCount) (hdel : s.generalDelayEndTime ≤ now) :
    ((s.queue.cmdQueue.getD s.queue.queueFront default).type = CMD_D →
      (s.queue.cmdQueue.getD s.queue.queueFront default).value1 = (d : ℚ) →
      (executeCommandFromQueue s now).generalDelayEndTime = now + d) ∧
    (∀ s2 : MachineState, ∀ now2 : Nat, now2 < s2.generalDelayEndTime →
      executeCommandFromQueue s2 now2 = s2) ∧
    ((executeCommandFromQueue s now).queue.queueCount = s.queue.queueCount - 1 ∧
     (executeCommandFromQueue s now).queue.queueFront =
       (s.queue.queueFront + 1) % QUEUE_SIZE ∧
     (executeCommandFromQueue s now).queue.cmdQueue = s.queue.cmdQueue) := by
  have hexec : executeCommandFromQueue s now =
      executeCommand
        { s with queue :=
            { s.queue with
              queueFront := (s.queue.queueFront + 1) % QUEUE_SIZE
              queueCount := s.queue.queueCount - 1 } }
        (s.queue.cmdQueue.getD s.queue.queueFront default) now := by
    unfold executeCommandFromQueue
    rw [if_pos ⟨hcnt, hdel⟩]
  refine ⟨?_, ?_, ?_⟩
  · intro ht hv
    rw [hexec]
    unfold executeCommand
    rw [ht]
    dsimp only
    rw [hv, truncToNat_natCast]
  · intro s2 now2 h2
    unfold executeCommandFromQueue
    rw [if_neg (fun hand => absurd hand.2 (not_le.mpr h2))]
  · rw [hexec]
    unfold executeCommand
    rcases htype : (s.queue.cmdQueue.getD s.queue.queueFront default).type <;>
      (dsimp only
       first
         | (split_ifs <;> exact ⟨rfl, rfl, rfl⟩)
         | exact ⟨rfl, rfl, rfl⟩)

/-- Witness for C4 at `c4State`, pass time 0, delay 2000 ms. -/
theorem C4_delay_gates_dispatch_witness :
    (executeCommandFromQueue c4State 0).generalDelayEndTime = 0 + 2000 ∧
    (executeCommandFromQueue c4State 0).queue.queueCount =
      c4State.queue.queueCount - 1 :=
  ⟨(C4_delay_gates_dispatch c4State 0 2000 (by decide) (by decide)).1
      (by decide) (by decide),
   ((C4_delay_gates_dispatch c4State 0 2000 (by decide) (by decide)).2.2).1⟩

/-! ## C5: heater timeout -/

/-- C5 counterexample: the code compares `now - heaterStartTime >
HEATER_TIMEOUT` strictly, so at the pass exactly at `t0 + HEATER_TIMEOUT`
(here 5000 ms after heater-on, with no dispense in between) the safety check
leaves the heater on, although the claim requires it to be forced off at the
first pass at or after `t0 + HEATER_TIMEOUT`. -/
theorem C5_timeout_boundary_counterexample :
    c5State.heaterActive = true ∧
    c5State.pumpUsedSinceHeaterOn = false ∧
    c5State.heaterStartTime + HEATER_TIMEOUT = 5000 ∧
    checkSafetyFeatures c5State 5000 = c5State ∧
    (checkSafetyFeatures c5State 5000).heaterActive = true := by decide

/-- C5 (amended): if the heater is on since `t0 = heaterStartTime` and no
Dispense has been dispatched since (`pumpUsedSinceHeaterOn = false`), the
timeout rule forces the heater off exactly on passes strictly after
`t0 + HEATER_TIMEOUT` — hence at the first such pass — writing heater power
zero (and the full safety check keeps it off); at any pass at or before
`t0 + HEATER_TIMEOUT` the rule changes nothing. -/
theorem C5_heater_timeout (s : MachineState) (now : Nat)
    (hact : s.heaterActive = true) (hpump : s.pumpUsedSinceHeaterOn = false) :
    ((heaterTimeoutCheck s now).heaterActive = false ↔
      s.heaterStartTime + HEATER_TIMEOUT < now) ∧
    (s.heaterStartTime + HEATER_TIMEOUT < now →
      (heaterTimeoutCheck s now).heaterActive = false ∧
      (heaterTimeoutCheck s now).heaterPower = 0 ∧
      (checkSafetyFeatures s now).heaterActive = false) ∧
    (now ≤ s.heaterStartTime + HEATER_TIMEOUT → heaterTimeoutCheck s now = s) := by
  have h5 : HEATER_TIMEOUT = 5000 := rfl
  have hfire : s.heaterStartTime + HEATER_TIMEOUT < now →
      heaterTimeoutCheck s now = { s with heaterPower := 0, heaterActive := false } := by
    intro h
    unfold heaterTimeoutCheck
    rw [if_pos ⟨hact, hpump, by rw [h5] at h ⊢; omega⟩]
  have hskip : now ≤ s.heaterStartTime + HEATER_TIMEOUT →
      heaterTimeoutCheck s now = s := by
    intro h
    unfold heaterTimeoutCheck
    rw [if_neg]
    intro hand
    rw [h5] at h
    have := hand.2.2
    rw [h5] at this
    omega
  refine ⟨⟨?_, ?_⟩, ?_, hskip⟩
  · intro hoff
    by_contra hnot
    push_neg at hnot
    rw [hskip hnot, hact] at hoff
    exact absurd hoff (by decide)
  · intro h
    rw [hfire h]
  · intro h
    refine ⟨by rw [hfire h], by rw [hfire h], ?_⟩
    unfold checkSafetyFeatures
    rw [hfire h]
    unfold postPumpCooldownCheck
    rw [if_neg]
    intro hand
    simp at hand

/-- Witness for the amended C5 at `c5State`, pass time 5001 ms. -/
theorem C5_heater_timeout_witness :
    (((heaterTimeoutCheck c5State 5001).heaterActive = false ↔
      c5State.heaterStartTime + HEATER_TIMEOUT < 5001) ∧
    (c5State.heaterStartTime + HEATER_TIMEOUT < 5001 →
      (heaterTimeoutCheck c5State 5001).heaterActive = false ∧
      (heaterTimeoutCheck c5State 5001).heaterPower = 0 ∧
      (checkSafetyFeatures c5State 5001).heaterActive = false) ∧
    (5001 ≤ c5State.heaterStartTime + HEATER_TIMEOUT →
      heaterTimeoutCheck c5State 5001 = c5State)) :=
  C5_heater_timeout c5State 5001 (by decide) (by decide)

/-! ## C7: a second Dispense while active is ignored -/

/-- C7: if a Dispense command reaches the dispatcher while a flow session is
already active, the command is ignored: the resulting state is exactly the
old state with only the queue pop applied — `targetVolumeML`,
`targetFlowRateMLPS`, `dispensedVolumeML`, the pulse-count baseline, the PID
state and the last commanded pump power are all unchanged, and
`dispensingActive` stays true (at most one flow session at a time). -/
theorem C7_dispense_while_active (s : MachineState) (now : Nat)
    (hcnt : 0 < s.queue.queueCount) (hdel : s.generalDelayEndTime ≤ now)
    (hfront : (s.queue.cmdQueue.getD s.queue.queueFront default).type = CMD_P)
    (hact : s.dispensingActive = true) :
    executeCommandFromQueue s now =
      { s with queue :=
          { s.queue with
            queueFront := (s.queue.queueFront + 1) % QUEUE_SIZE
            queueCount := s.queue.queueCount - 1 } } := by
  have hexec : executeCommandFromQueue s now =
      executeCommand
        { s with queue :=
            { s.queue with
              queueFront := (s.queue.queueFront + 1) % QUEUE_SIZE
              queueCount := s.queue.queueCount - 1 } }
        (s.queue.cmdQueue.getD s.queue.queueFront default) now := by
    unfold executeCommandFromQueue
    rw [if_pos ⟨hcnt, hdel⟩]
  rw [hexec]
  unfold executeCommand
  rw [hfront]
  dsimp only
  rw [if_neg]
  intro hfalse
  rw [hact] at hfalse
  exact absurd hfalse (by decide)

/-- Witness for C7 at `c7State`, pass time 0. -/
theorem C7_dispense_while_active_witness :
    executeCommandFromQueue c7State 0 =
      { c7State with queue :=
          { c7State.queue with
            queueFront := (c7State.queue.queueFront + 1) % QUEUE_SIZE
            queueCount := c7State.queue.queueCount - 1 } } :=
  C7_dispense_while_active c7State 0 (by decide) (by decide) (by decide)
    (by decide)

/-! ## C9: post-pump cooldown -/

/-- C9 counterexample: at the pass at t = 41000 ms the cooldown delay has
elapsed, the flow engine is Idle and the heater is still active, yet
`checkSafetyFeatures` does not force the heater off: the safety code only
fires when `generalDelayEndTime` falls inside the window
`(estimated stop, estimated stop + POST_PUMP_COOLDOWN + 200)`, and the
estimate `dispenseStartTime + dispensedVolume/targetRate·1000 = 25000 ms`
assumed the pump ran at the target rate, while it actually finished at
40000 ms.  The heater stays on (and rule 1 is also disabled because
`pumpUsedSinceHeaterOn` is true). -/
theorem C9_cooldown_counterexample :
    c9State.dispensingActive = false ∧
    c9State.heaterActive = true ∧
    0 < c9State.generalDelayEndTime ∧
    c9State.generalDelayEndTime ≤ 41000 ∧
    estPumpStopTime c9State = 25000 ∧
    checkSafetyFeatures c9State 41000 = c9State ∧
    (checkSafetyFeatures c9State 41000).heaterActive = true := by
  have hest : estPumpStopTime c9State = 25000 := by
    unfold estPumpStopTime
    rw [show c9State.dispensedVolumeML = 50 from rfl,
      show c9State.targetFlowRateMLPS = 2 from rfl,
      show c9State.dispenseStartTime = 0 from rfl,
      if_pos (by norm_num)]
    norm_num [truncToNat]
    decide
  have hsafety : checkSafetyFeatures c9State 41000 = c9State := by
    unfold checkSafetyFeatures heaterTimeoutCheck
    rw [if_neg (by decide)]
    unfold postPumpCooldownCheck
    rw [if_pos (by refine ⟨rfl, rfl, by decide, by decide⟩)]
    rw [if_neg]
    intro hand
    rw [hest, show c9State.generalDelayEndTime = 41000 from rfl,
      show POST_PUMP_COOLDOWN = 1000 from rfl] at hand
    omega
  refine ⟨rfl, rfl, by decide, by decide, hest, hsafety, ?_⟩
  rw [hsafety]
  rfl

/-- C9 (amended): whenever a dispense completes while the heater is active, a
cooldown delay of `POST_PUMP_COOLDOWN` is armed at the moment of completion;
once that delay elapses while the flow engine is Idle and the heater is still
active, the safety check forces the heater off **iff** the armed deadline
lies strictly between the estimated pump-stop time
`dispenseStartTime + dispensedVolume/targetRate·1000` and that estimate plus
`POST_PUMP_COOLDOWN + 200` ms; outside that plausibility window the heater is
left on. -/
theorem C9_post_pump_cooldown (s : MachineState) (now : Nat) :
    (s.targetVolumeML ≤ s.dispensedVolumeML → s.heaterActive = true →
      (checkStopCondition s now).generalDelayEndTime = now + POST_PUMP_COOLDOWN ∧
      (checkStopCondition s now).dispensingActive = false ∧
      (checkStopCondition s now).pumpPower = 0) ∧
    (s.dispensingActive = false → s.heaterActive = true →
      0 < s.generalDelayEndTime → s.generalDelayEndTime ≤ now →
      ((postPumpCooldownCheck s now).heaterActive = false ↔
        (estPumpStopTime s < s.generalDelayEndTime ∧
         s.generalDelayEndTime < estPumpStopTime s + POST_PUMP_COOLDOWN + 200))) := by
  constructor
  · intro hge hh
    unfold checkStopCondition
    rw [if_pos hge, if_pos hh]
    exact ⟨rfl, rfl, rfl⟩
  · intro hidle hh hpos hnow
    unfold postPumpCooldownCheck
    rw [if_pos ⟨hidle, hh, hpos, hnow⟩]
    by_cases hw : s.generalDelayEndTime > estPumpStopTime s ∧
        s.generalDelayEndTime < estPumpStopTime s + POST_PUMP_COOLDOWN + 200
    · rw [if_pos hw]
      exact iff_of_true rfl hw
    · rw [if_neg hw]
      constructor
      · intro hfalse
        rw [hh] at hfalse
        exact absurd hfalse (by decide)
      · intro hww
        exact absurd hww hw

set_option maxRecDepth 4000 in
/-- Witness for the amended C9 at `c9WitnessState`, pass time 26000 ms:
    the window test holds and the heater is forced off; and the arming half
    at `c9State`-like completion. -/
theorem C9_post_pump_cooldown_witness :
    ((checkStopCondition c1State 40000).generalDelayEndTime =
        40000 + POST_PUMP_COOLDOWN ∧
      (checkStopCondition c1State 40000).dispensingActive = false ∧
      (checkStopCondition c1State 40000).pumpPower = 0) ∧
    ((postPumpCooldownCheck c9WitnessState 26000).heaterActive = false ↔
      (estPumpStopTime c9WitnessState < c9WitnessState.generalDelayEndTime ∧
       c9WitnessState.generalDelayEndTime <
         estPumpStopTime c9WitnessState + POST_PUMP_COOLDOWN + 200)) :=
  ⟨(C9_post_pump_cooldown c1State 40000).1 (by decide) (by decide),
   (C9_post_pump_cooldown c9WitnessState 26000).2 (by decide) (by decide)
     (by decide) (by decide)⟩

theorem updateServo_spec_step (st : ServoControlState) (t D k : Nat)
    (hD : 1 ≤ D) :
    updateServo (servoPhaseSpec st t D k) (t + (k+1)) =
      servoPhaseSpec st t D (k+1) := by
  have hT : SERVO_PERIOD_MS = 5000 := rfl
  have hF : FORWARD_DURATION_MS = 4500 := rfl
  have hmodlt : k % 5000 < 5000 := Nat.mod_lt k (by omega)
  have hdiv : 5000 * (k / 5000) + k % 5000 = k := Nat.div_add_mod k 5000
  by_cases hk : k < D
  · rw [servoPhaseSpec, if_pos hk]
    by_cases hk1 : k + 1 < D
    · rw [servoPhaseSpec, if_pos hk1]
      unfold updateServo
      rw [hT, hF]
      dsimp only
      rw [if_neg (by decide), if_neg (by omega)]
      have htip : t + (k+1) - (t + 5000 * (k / 5000)) = k % 5000 + 1 := by
        omega
      by_cases hr : k % 5000 < 4500
      · rw [if_pos (by simpa using hr)]
        rw [htip]
        by_cases hr1 : k % 5000 + 1 ≥ 4500
        · -- boundary: switch to reverse
          rw [if_pos hr1]
          have hm1 : (k+1) % 5000 = k % 5000 + 1 := by omega
          have hd1 : (k+1) / 5000 = k / 5000 := by omega
          simp only [ServoControlState.mk.injEq, hm1, hd1]
          refine ⟨trivial, trivial, trivial, trivial, trivial, ?_, trivial, ?_⟩
          · exact (decide_eq_false (by omega)).symm
          · rw [if_neg (by omega)]
        · -- strictly inside the forward phase
          rw [if_neg hr1]
          have hm1 : (k+1) % 5000 = k % 5000 + 1 := by omega
          have hd1 : (k+1) / 5000 = k / 5000 := by omega
          simp only [ServoControlState.mk.injEq, hm1, hd1]
          refine ⟨trivial, trivial, trivial, trivial, trivial, ?_, trivial, ?_⟩
          · exact decide_eq_decide.mpr (by omega)
          · rw [if_pos hr, if_pos (by omega)]
      · rw [if_neg (by simpa using hr)]
        rw [htip]
        by_cases hr1 : k % 5000 + 1 ≥ 5000
        · -- period complete: back to forward, new period starts now
          rw [if_pos hr1]
          have hm1 : (k+1) % 5000 = 0 := by omega
          have hd1 : (k+1) / 5000 = k / 5000 + 1 := by omega
          simp only [ServoControlState.mk.injEq, hm1, hd1]
          refine ⟨trivial, trivial, trivial, trivial, ?_, ?_, trivial, ?_⟩
          · omega
          · exact (by decide : true = decide (0 < 4500))
          · rw [if_pos (by omega)]
        · -- strictly inside the reverse phase
          rw [if_neg hr1]
          have hm1 : (k+1) % 5000 = k % 5000 + 1 := by omega
          have hd1 : (k+1) / 5000 = k / 5000 := by omega
          simp only [ServoControlState.mk.injEq, hm1, hd1]
          refine ⟨trivial, trivial, trivial, trivial, trivial, ?_, trivial, ?_⟩
          · exact decide_eq_decide.mpr (by omega)
          · rw [if_neg hr, if_neg (by omega)]
    · -- k + 1 = D: the total run time expires on this pass
      have hkD : k + 1 = D := by omega
      rw [servoPhaseSpec, if_neg (show ¬(k + 1 < D) by omega)]
      unfold updateServo
      rw [hT, hF]
      dsimp only
      rw [if_neg (by decide), if_pos (by omega)]
      have hDk : D - 1 = k := by omega
      simp only [ServoControlState.mk.injEq, hDk]
  · -- already stopped at k, stays stopped
    rw [servoPhaseSpec, if_neg hk, servoPhaseSpec, if_neg (by omega)]
    unfold updateServo
    dsimp only
    rw [if_pos rfl]

/-- The simulated trace matches the closed form at every sampled
    millisecond. -/
theorem simServo_closed_form (st : ServoControlState) (t D : Nat)
    (hD : 1 ≤ D) :
    ∀ k, simServo (armServo st t D) t k = servoPhaseSpec st t D k := by
  intro k
  induction k with
  | zero =>
      unfold simServo armServo servoPhaseSpec
      rw [if_pos (by omega)]
      simp [SERVO_PERIOD_MS, FORWARD_DURATION_MS]
  | succ k ih =>
      unfold simServo
      rw [ih]
      exact updateServo_spec_step st t D k hD

/-- C8: arming a servo for `D` ms at time `t` (the `CMD_S` case of
`executeCommandFromQueue` calls `armServo`) commands the forward speed
immediately; simulating `updateServo` at every subsequent millisecond, while
the elapsed time `k` is below `D` the servo is running and spends the first
`FORWARD_DURATION_MS` (= 0.9·`SERVO_PERIOD_MS`) of each period at the forward
speed and the rest of the period at the reverse speed, period after period;
as soon as the elapsed time reaches `D` it commands the neutral
`SERVO_STOP_SPEED` with `isRunning = false`, and a stopped servo is never
changed again by `updateServo` (terminal). -/
theorem C8_periodic_motion (st : ServoControlState) (t D k : Nat)
    (hD : 1 ≤ D) :
    (armServo st t D).speedCmd = st.forwardSpeed ∧
    (armServo st t D).isRunning = true ∧
    simServo (armServo st t D) t k = servoPhaseSpec st t D k ∧
    (k < D →
      (simServo (armServo st t D) t k).isRunning = true ∧
      (simServo (armServo st t D) t k).speedCmd =
        (if k % SERVO_PERIOD_MS < FORWARD_DURATION_MS then st.forwardSpeed
         else st.reverseSpeed)) ∧
    (D ≤ k →
      (simServo (armServo st t D) t k).isRunning = false ∧
      (simServo (armServo st t D) t k).speedCmd = SERVO_STOP_SPEED) ∧
    (∀ (st2 : ServoControlState) (now2 : Nat), st2.isRunning = false →
      updateServo st2 now2 = st2) := by
  have hsim := simServo_closed_form st t D hD k
  refine ⟨rfl, rfl, hsim, ?_, ?_, ?_⟩
  · intro hk
    rw [hsim]
    unfold servoPhaseSpec
    rw [if_pos hk]
    exact ⟨rfl, rfl⟩
  · intro hk
    rw [hsim]
    unfold servoPhaseSpec
    rw [if_neg (by omega)]
    exact ⟨rfl, rfl⟩
  · intro st2 now2 h2
    unfold updateServo
    rw [h2, if_pos rfl]

/-- Witness for C8: servo A (forward 135, reverse 45) armed at `t = 0` for
    `D = 6000` ms, sampled at `k = 4700` ms — inside the reverse phase of the
    first period. -/
theorem C8_periodic_motion_witness :
    (armServo bootMachine.servoAState 0 6000).speedCmd =
      bootMachine.servoAState.forwardSpeed ∧
    (armServo bootMachine.servoAState 0 6000).isRunning = true ∧
    simServo (armServo bootMachine.servoAState 0 6000) 0 4700 =
      servoPhaseSpec bootMachine.servoAState 0 6000 4700 ∧
    (4700 < 6000 →
      (simServo (armServo bootMachine.servoAState 0 6000) 0 4700).isRunning =
        true ∧
      (simServo (armServo bootMachine.servoAState 0 6000) 0 4700).speedCmd =
        (if 4700 % SERVO_PERIOD_MS < FORWARD_DURATION_MS then
          bootMachine.servoAState.forwardSpeed
         else bootMachine.servoAState.reverseSpeed)) ∧
    (6000 ≤ 4700 →
      (simServo (armServo bootMachine.servoAState 0 6000) 0 4700).isRunning =
        false ∧
      (simServo (armServo bootMachine.servoAState 0 6000) 0 4700).speedCmd =
        SERVO_STOP_SPEED) ∧
    (∀ (st2 : ServoControlState) (now2 : Nat), st2.isRunning = false →
      updateServo st2 now2 = st2) :=
  C8_periodic_motion bootMachine.servoAState 0 6000 4700 (by decide)
